import Mathlib

/-!
Shallow embedding of the gesture-based window tiler
(`win_tiler_test_2.py`) of the Windows-11-Toolkit repository, together
with theorems settling the frozen claims about its specification.

Conventions:
* mouse points are integer pixel pairs `(x, y)` (screen coordinates,
  `y` grows downward);
* Python machine floats that hold screen fractions are modelled as `ℚ`
  (the fractions and monitor sizes involved are exactly representable);
* Python exceptions are modelled with `Except Unit`;
* JSON / Python values are modelled by the inductive `PyVal`
  (string-valued fields never occur in region data and are omitted).
-/

namespace WinTiler

/-- A recorded mouse point: integer pixel coordinates `(x, y)`. -/
abbrev Pt : Type := ℤ × ℤ

/-- Configuration constant `MIN_STROKE = 80` (minimum stroke length in px). -/
def MIN_STROKE : ℤ := 80

/-- Embeds `make_L_detector(dy_sign, dx_sign)` applied to a sample:
fewer than 6 points fails; otherwise with `m = len(pts)//2`,
`v1 = pts[m-1] - pts[0]`, `v2 = pts[-1] - pts[m]`, it requires
`|v1.y| > |v1.x|`, `v1.y*dy_sign > MIN_STROKE`,
`|v2.x| > |v2.y|`, `v2.x*dx_sign > MIN_STROKE`. -/
def make_L_detector (dySign dxSign : ℤ) (pts : List Pt) : Bool :=
  if pts.length < 6 then false
  else
    let m := pts.length / 2
    let p0 := pts.getD 0 (0, 0)
    let pm1 := pts.getD (m - 1) (0, 0)
    let pm := pts.getD m (0, 0)
    let plast := pts.getD (pts.length - 1) (0, 0)
    let v1 : Pt := (pm1.1 - p0.1, pm1.2 - p0.2)
    let v2 : Pt := (plast.1 - pm.1, plast.2 - pm.2)
    decide (|v1.2| > |v1.1|) && decide (v1.2 * dySign > MIN_STROKE) &&
    decide (|v2.1| > |v2.2|) && decide (v2.1 * dxSign > MIN_STROKE)

/-- Embeds `detect_V(pts)`: fewer than 8 points fails; otherwise with
`t = len(pts)//3`, `v1 = pts[t] - pts[0]`, `v2 = pts[2*t] - pts[t]`,
it requires `v1.y > MIN_STROKE`, `v1.x > MIN_STROKE`,
`v2.y < -MIN_STROKE`, `v2.x > MIN_STROKE`. -/
def detect_V (pts : List Pt) : Bool :=
  if pts.length < 8 then false
  else
    let t := pts.length / 3
    let p0 := pts.getD 0 (0, 0)
    let pt1 := pts.getD t (0, 0)
    let pt2 := pts.getD (2 * t) (0, 0)
    let v1 : Pt := (pt1.1 - p0.1, pt1.2 - p0.2)
    let v2 : Pt := (pt2.1 - pt1.1, pt2.2 - pt1.2)
    decide (v1.2 > MIN_STROKE) && decide (v1.1 > MIN_STROKE) &&
    decide (v2.2 < -MIN_STROKE) && decide (v2.1 > MIN_STROKE)

/-- The `GESTURES` table, in its declared (insertion) order. -/
def GESTURES : List (String × (List Pt → Bool)) :=
  [("L_down_right", make_L_detector 1 1),
   ("L_up_right", make_L_detector (-1) 1),
   ("L_down_left", make_L_detector 1 (-1)),
   ("L_up_left", make_L_detector (-1) (-1)),
   ("V_shape", detect_V)]

/-- Embeds the classification loop of `record_and_action`: the detectors
are tried in the declared order of `GESTURES` and the first match wins;
`none` models the no-match branch. -/
def classify (pts : List Pt) : Option String :=
  (GESTURES.find? (fun g => g.2 pts)).map Prod.fst

/-- Displacement vector from point `i` to point `j` of a sample. -/
def vecBetween (pts : List Pt) (i j : ℕ) : Pt :=
  ((pts.getD j (0, 0)).1 - (pts.getD i (0, 0)).1,
   (pts.getD j (0, 0)).2 - (pts.getD i (0, 0)).2)

/-- The V-shape acceptance condition as the specification words it
(second definition, kept for comparison with `detect_V`): the first
two-thirds of the sample (from `pts[0]` to `pts[2*t]`) must move
down-and-right with each component strictly beyond the threshold, and the
final third (from `pts[2*t]` to the last point) up-and-right with each
component strictly beyond the threshold. -/
def spec_V (pts : List Pt) : Bool :=
  if pts.length < 8 then false
  else
    let t := pts.length / 3
    let d1 := vecBetween pts 0 (2 * t)
    let d2 := vecBetween pts (2 * t) (pts.length - 1)
    decide (d1.2 > MIN_STROKE) && decide (d1.1 > MIN_STROKE) &&
    decide (d2.2 < -MIN_STROKE) && decide (d2.1 > MIN_STROKE)

/-- Helper: if the first `i` elements all fail the predicate and the `i`-th
element satisfies it, `find?` returns the `i`-th element. -/
theorem find?_of_take_get {α : Type} (p : α → Bool) :
    ∀ (l : List α) (i : ℕ) (hi : i < l.length),
      (∀ a ∈ l.take i, p a = false) → p (l.get ⟨i, hi⟩) = true →
      l.find? p = some (l.get ⟨i, hi⟩) := by
  intro l
  induction l with
  | nil => intro i hi; simp at hi
  | cons a t ih =>
    intro i hi h1 h2
    cases i with
    | zero =>
      simp only [List.get] at h2
      simp [List.find?, h2]
    | succ j =>
      have ha : p a = false := h1 a (by simp)
      have ht : ∀ b ∈ t.take j, p b = false := by
        intro b hb; exact h1 b (by simp [hb])
      have := ih j (by simpa using hi) ht (by simpa using h2)
      simp [List.find?, ha, this]

/-- C3 counterexample: a 9-point sample that `detect_V` accepts although
its first two-thirds displacement has no downward component at all and
its final third moves downward — the claim's two-thirds / final-third
characterization (`spec_V`) rejects it. -/
theorem claim_C3_counterexample :
    detect_V
        [(0,0),(33,33),(66,66),(100,100),(133,66),(166,33),(200,0),(200,150),(200,300)]
      = true ∧
    spec_V
        [(0,0),(33,33),(66,66),(100,100),(133,66),(166,33),(200,0),(200,150),(200,300)]
      = false := by
  constructor <;> rfl

/-- C3 (amended): `detect_V` matches iff the sample has at least 8 points
and, with `t = len//3`, the displacement across the first third
(`pts[0]` to `pts[t]`) is downward and rightward with each component
strictly exceeding the threshold, and the displacement across the middle
third (`pts[t]` to `pts[2*t]`) is upward and rightward with each
component strictly exceeding the threshold; points after index `2*t`
are ignored. -/
theorem claim_C3 (pts : List Pt) :
    detect_V pts = true ↔
      8 ≤ pts.length ∧
      ((vecBetween pts 0 (pts.length / 3)).2 > MIN_STROKE ∧
       (vecBetween pts 0 (pts.length / 3)).1 > MIN_STROKE ∧
       (vecBetween pts (pts.length / 3) (2 * (pts.length / 3))).2 < -MIN_STROKE ∧
       (vecBetween pts (pts.length / 3) (2 * (pts.length / 3))).1 > MIN_STROKE) := by
  unfold detect_V vecBetween
  split
  · next h =>
    simp only [Bool.false_eq_true, false_iff, not_and]
    intro hc
    omega
  · next h =>
    simp only [Bool.and_eq_true, decide_eq_true_eq]
    constructor
    · rintro ⟨⟨⟨h1, h2⟩, h3⟩, h4⟩
      exact ⟨by omega, h1, h2, h3, h4⟩
    · rintro ⟨-, h1, h2, h3, h4⟩
      exact ⟨⟨⟨h1, h2⟩, h3⟩, h4⟩

/-- C5: an L-shape detector matches iff the sample has at least 6 points
and, with `m = len//2`, the first-half displacement (`pts[0]` to
`pts[m-1]`) is dominated by its vertical component, whose signed
magnitude in the gesture's direction strictly exceeds the threshold, and
the second-half displacement (`pts[m]` to the last point) is dominated
by its horizontal component, whose signed magnitude in the gesture's
direction strictly exceeds the threshold; at the default threshold 80 a
first-half vertical displacement of exactly 80 px does not match while
81 px does (witnessed by the two concrete samples). -/
theorem claim_C5 :
    (∀ (dySign dxSign : ℤ) (pts : List Pt),
      make_L_detector dySign dxSign pts = true ↔
        6 ≤ pts.length ∧
        (|(vecBetween pts 0 (pts.length / 2 - 1)).2| >
           |(vecBetween pts 0 (pts.length / 2 - 1)).1| ∧
         (vecBetween pts 0 (pts.length / 2 - 1)).2 * dySign > MIN_STROKE ∧
         |(vecBetween pts (pts.length / 2) (pts.length - 1)).1| >
           |(vecBetween pts (pts.length / 2) (pts.length - 1)).2| ∧
         (vecBetween pts (pts.length / 2) (pts.length - 1)).1 * dxSign > MIN_STROKE)) ∧
    make_L_detector 1 1 [(0,0),(0,40),(0,80),(0,81),(50,81),(100,81)] = false ∧
    make_L_detector 1 1 [(0,0),(0,40),(0,81),(0,81),(50,81),(100,81)] = true := by
  refine ⟨?_, by rfl, by rfl⟩
  intro dySign dxSign pts
  unfold make_L_detector vecBetween
  split
  · next h =>
    simp only [Bool.false_eq_true, false_iff, not_and]
    intro hc
    omega
  · next h =>
    simp only [Bool.and_eq_true, decide_eq_true_eq]
    constructor
    · rintro ⟨⟨⟨h1, h2⟩, h3⟩, h4⟩
      exact ⟨by omega, h1, h2, h3, h4⟩
    · rintro ⟨-, h1, h2, h3, h4⟩
      exact ⟨⟨⟨h1, h2⟩, h3⟩, h4⟩

/-- C6: classification yields at most one name; the result is `none` iff
no predicate matches; a returned name always comes from a matching
predicate in the table; and whenever every predicate declared before
position `i` fails and the one at `i` matches, the result is exactly the
name at `i` — the first matching predicate in the declared order
`L_down_right, L_up_right, L_down_left, L_up_left, V_shape` wins. -/
theorem claim_C6 (pts : List Pt) :
    (classify pts = none ↔ ∀ g ∈ GESTURES, g.2 pts = false) ∧
    (∀ name, classify pts = some name →
      ∃ g ∈ GESTURES, g.1 = name ∧ g.2 pts = true) ∧
    (∀ i, ∀ hi : i < GESTURES.length,
      (∀ g ∈ GESTURES.take i, g.2 pts = false) →
      (GESTURES.get ⟨i, hi⟩).2 pts = true →
      classify pts = some (GESTURES.get ⟨i, hi⟩).1) := by
  refine ⟨?_, ?_, ?_⟩
  · simp [classify, List.find?_eq_none]
  · intro name h
    rcases Option.map_eq_some'.1 h with ⟨g, hg, rfl⟩
    have hp := (List.find?_eq_some.1 hg).1
    exact ⟨g, List.mem_of_find?_eq_some hg, rfl, by simpa using hp⟩
  · intro i hi h1 h2
    unfold classify
    rw [find?_of_take_get _ GESTURES i hi h1 h2]
    rfl

/-! ### Region store: JSON / Python values, `region_from_value`,
`normalize_loaded`, `load_mappings` / `save_mappings` -/

/-- JSON / Python values as they occur in the mappings file.  String
values never occur in region data and are omitted from the model. -/
inductive PyVal where
  | pnone : PyVal
  | pbool : Bool → PyVal
  | num : ℚ → PyVal
  | plist : List PyVal → PyVal
  | pdict : List (String × PyVal) → PyVal

/-- `isinstance(v, numbers.Number)`: Python numbers include `bool`. -/
def isNumber : PyVal → Bool
  | PyVal.num _ => true
  | PyVal.pbool _ => true
  | _ => false

/-- Python `float(v)`: numbers pass through, booleans map to 1/0, and
`None`, lists and dicts raise `TypeError` (modelled as `Option.none`). -/
def pyFloat : PyVal → Option ℚ
  | PyVal.num q => some q
  | PyVal.pbool b => some (if b then 1 else 0)
  | _ => Option.none

/-- `float` of a value already known to be a number (never raises). -/
def numOf (v : PyVal) : ℚ := (pyFloat v).getD 0

/-- A canonical region as `region_from_value` produces it: the four
fractional fields only. -/
structure Region where
  x_frac : ℚ
  y_frac : ℚ
  w_frac : ℚ
  h_frac : ℚ
deriving DecidableEq

/-- `float(v.get(k, dflt))`: an absent key yields the default, a present
non-coercible value raises. -/
def getFracField (d : List (String × PyVal)) (k : String) (dflt : ℚ) :
    Except Unit ℚ :=
  match List.lookup k d with
  | Option.none => Except.ok dflt
  | some v =>
    match pyFloat v with
    | some q => Except.ok q
    | Option.none => Except.error ()

/-- Embeds `region_from_value(v)`: a dict yields a region with defaults
`x_frac=0, y_frac=0, w_frac=1, h_frac=1` for missing fields (raising if
a present field is not float-coercible); a list whose first four items
are numbers yields a region from those items; everything else yields
`None`.  In the list branch the `all isNumber` guard makes `float`
total, hence `numOf`. -/
def region_from_value : PyVal → Except Unit (Option Region)
  | PyVal.pdict d => do
    let x ← getFracField d "x_frac" 0
    let y ← getFracField d "y_frac" 0
    let w ← getFracField d "w_frac" 1
    let h ← getFracField d "h_frac" 1
    pure (some ⟨x, y, w, h⟩)
  | PyVal.plist l =>
    if 4 ≤ l.length ∧ (l.take 4).all isNumber = true then
      Except.ok (some ⟨numOf (l.getD 0 PyVal.pnone), numOf (l.getD 1 PyVal.pnone),
                       numOf (l.getD 2 PyVal.pnone), numOf (l.getD 3 PyVal.pnone)⟩)
    else Except.ok Option.none
  | _ => Except.ok Option.none

/-- The per-element loop of `normalize_loaded`'s list branch: coerce each
element, keep the non-`None` results in order, propagate exceptions. -/
def collectRegions : List PyVal → Except Unit (List Region)
  | [] => Except.ok []
  | v :: vs => do
    let r ← region_from_value v
    let rest ← collectRegions vs
    pure (r.toList ++ rest)

/-- The per-gesture body of `normalize_loaded`: a single dict becomes a
one-element list, a flat numeric list a single region, any other list is
coerced element-wise, and other value types yield the empty list. -/
def normalize_value : PyVal → Except Unit (List Region)
  | PyVal.pdict d => do
    let r ← region_from_value (PyVal.pdict d)
    pure r.toList
  | PyVal.plist l =>
    if 4 ≤ l.length ∧ (l.take 4).all isNumber = true then do
      let r ← region_from_value (PyVal.plist l)
      pure r.toList
    else collectRegions l
  | _ => Except.ok []

/-- The per-entry loop of `normalize_loaded` (keys of a JSON object are
distinct, so the dict assignment is a simple append in order). -/
def normEntries : List (String × PyVal) → Except Unit (List (String × List Region))
  | [] => Except.ok []
  | (name, val) :: rest => do
    let items ← normalize_value val
    let tail ← normEntries rest
    pure ((name, items) :: tail)

/-- Embeds `normalize_loaded(raw)`: a non-dict yields the empty mapping. -/
def normalize_loaded : PyVal → Except Unit (List (String × List Region))
  | PyVal.pdict entries => normEntries entries
  | _ => Except.ok []

/-- The canonical encoding of a `Region` back into a Python dict, in the
field order the program writes. -/
def Region.toPy (r : Region) : PyVal :=
  PyVal.pdict [("x_frac", PyVal.num r.x_frac), ("y_frac", PyVal.num r.y_frac),
               ("w_frac", PyVal.num r.w_frac), ("h_frac", PyVal.num r.h_frac)]

/-- The Python value of a gesture mapping whose entries are lists of
canonical frac-only regions. -/
def mappingToPy (m : List (String × List Region)) : PyVal :=
  PyVal.pdict (m.map (fun p => (p.1, PyVal.plist (p.2.map Region.toPy))))

/-- A canonical region record as the editor's save handler writes it:
the four fractions plus the authoring monitor rectangle. -/
structure RegionM where
  x_frac : ℚ
  y_frac : ℚ
  w_frac : ℚ
  h_frac : ℚ
  monitor : ℤ × ℤ × ℤ × ℤ

/-- Encoding of a monitor-tagged region as the program writes it. -/
def RegionM.toPy (r : RegionM) : PyVal :=
  PyVal.pdict [("x_frac", PyVal.num r.x_frac), ("y_frac", PyVal.num r.y_frac),
               ("w_frac", PyVal.num r.w_frac), ("h_frac", PyVal.num r.h_frac),
               ("monitor", PyVal.plist [PyVal.num r.monitor.1, PyVal.num r.monitor.2.1,
                                        PyVal.num r.monitor.2.2.1, PyVal.num r.monitor.2.2.2])]

/-- `load_mappings` applied to the file `save_mappings(m)` wrote:
`json.dump` followed by `json.load` is the identity on these values
(Python preserves dict insertion order, and float literals round-trip
exactly), so the composition is `normalize_loaded`. -/
def load_after_save (m : PyVal) : Except Unit (List (String × List Region)) :=
  normalize_loaded m

/-- Coercing the canonical encoding of a region recovers that region. -/
theorem region_from_value_toPy (r : Region) :
    region_from_value (Region.toPy r) = Except.ok (some r) := by
  cases r; rfl

/-- Element-wise coercion of a list of encoded regions recovers the list. -/
theorem collectRegions_toPy (rs : List Region) :
    collectRegions (rs.map Region.toPy) = Except.ok rs := by
  induction rs with
  | nil => rfl
  | cons r rest ih =>
    simp [collectRegions, region_from_value_toPy, ih, Bind.bind, Except.bind, Pure.pure, Except.pure]

/-- Normalising an encoded list of regions recovers the list: the
flat-numeric-list test never fires on a list of dicts. -/
theorem normalize_value_toPy (rs : List Region) :
    normalize_value (PyVal.plist (rs.map Region.toPy)) = Except.ok rs := by
  cases rs with
  | nil => rfl
  | cons r rest =>
    have hguard : ¬(4 ≤ (List.map Region.toPy (r :: rest)).length ∧
        ((List.map Region.toPy (r :: rest)).take 4).all isNumber = true) := by
      rintro ⟨-, hall⟩
      simp [Region.toPy, isNumber] at hall
    simp only [normalize_value, if_neg hguard]
    exact collectRegions_toPy (r :: rest)

/-- C2 counterexample: a mapping with a single canonical region record —
four fractions plus the authoring monitor rectangle, exactly as the
editor saves it — does not survive the round trip: `region_from_value`
keeps only the four fractional fields, so the reloaded mapping lacks
the `monitor` field and differs from the input. -/
theorem claim_C2_counterexample :
    load_after_save
        (PyVal.pdict [("V_shape", PyVal.plist [RegionM.toPy ⟨0, 0, 1/2, 1, (0, 0, 1920, 1080)⟩])])
      = Except.ok [("V_shape", [⟨0, 0, 1/2, 1⟩])] ∧
    mappingToPy [("V_shape", [⟨0, 0, 1/2, 1⟩])]
      ≠ PyVal.pdict [("V_shape", PyVal.plist [RegionM.toPy ⟨0, 0, 1/2, 1, (0, 0, 1920, 1080)⟩])] := by
  refine ⟨rfl, ?_⟩
  simp [mappingToPy, Region.toPy, RegionM.toPy]

/-- C2 (amended): the round trip `load_mappings ∘ save_mappings` is the
identity on gesture mappings whose values are lists of frac-only
canonical region records; the authoring monitor rectangle is dropped by
`region_from_value` on load and does not round-trip. -/
theorem claim_C2 (m : List (String × List Region)) :
    load_after_save (mappingToPy m) = Except.ok m := by
  induction m with
  | nil => rfl
  | cons entry rest ih =>
    obtain ⟨name, rs⟩ := entry
    simp only [load_after_save, mappingToPy, normalize_loaded, List.map_cons] at ih ⊢
    simp [normEntries, normalize_value_toPy, ih, Bind.bind, Except.bind, Pure.pure, Except.pure]

/-- C9 counterexample: a dict whose `x_frac` field is `None` makes
`float(None)` raise `TypeError`, so `region_from_value` raises instead
of producing a region — the claim's universal "every dict yields a
region" fails. -/
theorem claim_C9_counterexample :
    region_from_value (PyVal.pdict [("x_frac", PyVal.pnone)]) = Except.error () := rfl

/-- Helper for C9: a fractional field lookup succeeds when the stored
value (if any) is a number, and yields the default when absent. -/
theorem getFracField_ok (d : List (String × PyVal)) (k : String) (dflt : ℚ)
    (hk : ∀ v, List.lookup k d = some v → isNumber v = true) :
    ∃ q, getFracField d k dflt = Except.ok q ∧
      (List.lookup k d = Option.none → q = dflt) := by
  unfold getFracField
  cases hl : List.lookup k d with
  | none => exact ⟨dflt, rfl, fun _ => rfl⟩
  | some v =>
    have hv := hk v hl
    cases v with
    | num q => exact ⟨q, rfl, by simp⟩
    | pbool b => exact ⟨if b then 1 else 0, rfl, by simp⟩
    | pnone => simp [isNumber] at hv
    | plist l => simp [isNumber] at hv
    | pdict l => simp [isNumber] at hv

/-- C9 (amended): every dict whose present fractional fields are numbers
yields a region (no rejection), with missing fields defaulted to
`x_frac=0, y_frac=0, w_frac=1, h_frac=1` — in particular the empty dict
loads as a full-monitor region; a dict holding a non-coercible value
(e.g. `None`) under a fractional key instead raises. -/
theorem claim_C9 (d : List (String × PyVal))
    (h : ∀ k v, (k = "x_frac" ∨ k = "y_frac" ∨ k = "w_frac" ∨ k = "h_frac") →
      List.lookup k d = some v → isNumber v = true) :
    ∃ r : Region, region_from_value (PyVal.pdict d) = Except.ok (some r) ∧
      (List.lookup "x_frac" d = Option.none → r.x_frac = 0) ∧
      (List.lookup "y_frac" d = Option.none → r.y_frac = 0) ∧
      (List.lookup "w_frac" d = Option.none → r.w_frac = 1) ∧
      (List.lookup "h_frac" d = Option.none → r.h_frac = 1) := by
  obtain ⟨qx, hx, hxd⟩ := getFracField_ok d "x_frac" 0 (fun v => h "x_frac" v (by simp))
  obtain ⟨qy, hy, hyd⟩ := getFracField_ok d "y_frac" 0 (fun v => h "y_frac" v (by simp))
  obtain ⟨qw, hw, hwd⟩ := getFracField_ok d "w_frac" 1 (fun v => h "w_frac" v (by simp))
  obtain ⟨qh, hh, hhd⟩ := getFracField_ok d "h_frac" 1 (fun v => h "h_frac" v (by simp))
  refine ⟨⟨qx, qy, qw, qh⟩, ?_, hxd, hyd, hwd, hhd⟩
  simp [region_from_value, hx, hy, hw, hh, Bind.bind, Except.bind, Pure.pure, Except.pure]

/-- C9 witness: the empty dict yields the full-monitor region with all
four defaults. -/
theorem claim_C9_witness :
    ∃ r : Region, region_from_value (PyVal.pdict []) = Except.ok (some r) ∧
      (List.lookup "x_frac" ([] : List (String × PyVal)) = Option.none → r.x_frac = 0) ∧
      (List.lookup "y_frac" ([] : List (String × PyVal)) = Option.none → r.y_frac = 0) ∧
      (List.lookup "w_frac" ([] : List (String × PyVal)) = Option.none → r.w_frac = 1) ∧
      (List.lookup "h_frac" ([] : List (String × PyVal)) = Option.none → r.h_frac = 1) :=
  claim_C9 [] (fun k v _ hl => by simp [List.lookup] at hl)

/-! ### Window tiling engine -/

/-- Python `int(q)`: truncation toward zero. -/
def pyInt (q : ℚ) : ℤ := if 0 ≤ q then ⌊q⌋ else ⌈q⌉

/-- The pixel rectangle `(x, y, w, h)` the effective `tile_window` (the
second definition of that name, which is the one Python binds) computes
for a region: the fractions are scaled by the primary-screen metrics
`SCREEN_W × SCREEN_H` at origin `(0, 0)`. -/
def tileRect (SW SH : ℤ) (r : Region) : ℤ × ℤ × ℤ × ℤ :=
  (pyInt ((SW : ℚ) * r.x_frac), pyInt ((SH : ℚ) * r.y_frac),
   pyInt ((SW : ℚ) * r.w_frac), pyInt ((SH : ℚ) * r.h_frac))

/-- The pixel rectangle computed by the earlier, monitor-aware
`tile_window` definition (shadowed by the later one): the fractions are
mapped onto the destination window's monitor rectangle
`(left, top, right, bottom)`. -/
def tileRect_v1 (mon : ℤ × ℤ × ℤ × ℤ) (r : Region) : ℤ × ℤ × ℤ × ℤ :=
  let monW := mon.2.2.1 - mon.1
  let monH := mon.2.2.2 - mon.2.1
  (mon.1 + pyInt ((monW : ℚ) * r.x_frac), mon.2.1 + pyInt ((monH : ℚ) * r.y_frac),
   max 1 (pyInt ((monW : ℚ) * r.w_frac)), max 1 (pyInt ((monH : ℚ) * r.h_frac)))

/-- The log lines `tile_window` can print. -/
inductive LogMsg where
  | invalidMapping : LogMsg
  | noCandidates : LogMsg
  | tiled : ℕ → ℕ → LogMsg
  | tileFailed : ℕ → LogMsg
  | regionsUnused : ℕ → LogMsg
  | windowsUntiled : ℕ → LogMsg
deriving DecidableEq

/-- The pairing loop of `tile_window`: each `(region, hwnd)` pair is
attempted in order; `move hwnd` models whether the
`ShowWindow`/`MoveWindow` call for that window succeeds or raises; a
raise is caught, logged, and the loop continues with the next pair. -/
def tileLoop (SW SH : ℤ) (move : ℕ → Bool) :
    List (Region × ℕ) → ℕ → List (ℕ × (ℤ × ℤ × ℤ × ℤ)) × List LogMsg
  | [], _ => ([], [])
  | (r, hwnd) :: rest, i =>
    let res := tileLoop SW SH move rest (i + 1)
    if move hwnd then
      ((hwnd, tileRect SW SH r) :: res.1, LogMsg.tiled hwnd i :: res.2)
    else
      (res.1, LogMsg.tileFailed hwnd :: res.2)

/-- Embeds the effective `tile_window` from the normalized region list
and the (already focus-reordered) candidate list on: empty regions or
empty candidates return early with a warning; otherwise the first
`min(len(regions), len(candidates))` positional pairs are processed and
surplus regions / surplus windows are reported. -/
def tile_window (SW SH : ℤ) (move : ℕ → Bool) (regions : List Region)
    (candidates : List ℕ) : List (ℕ × (ℤ × ℤ × ℤ × ℤ)) × List LogMsg :=
  if regions.isEmpty then ([], [LogMsg.invalidMapping])
  else if candidates.isEmpty then ([], [LogMsg.noCandidates])
  else
    let n := min regions.length candidates.length
    let res := tileLoop SW SH move (regions.zip candidates) 0
    let l1 : List LogMsg :=
      if n < regions.length then [LogMsg.regionsUnused (regions.length - n)] else []
    let l2 : List LogMsg :=
      if n < candidates.length then [LogMsg.windowsUntiled (candidates.length - n)] else []
    (res.1, res.2 ++ l1 ++ l2)

/-- The windows the loop actually moves are the pairs whose apply
succeeds, each at its region's rectangle, in order. -/
theorem tileLoop_fst (SW SH : ℤ) (move : ℕ → Bool) :
    ∀ (pairs : List (Region × ℕ)) (i : ℕ),
      (tileLoop SW SH move pairs i).1 =
        (pairs.filter (fun p => move p.2)).map (fun p => (p.2, tileRect SW SH p.1)) := by
  intro pairs
  induction pairs with
  | nil => intro i; rfl
  | cons p rest ih =>
    intro i
    obtain ⟨r, hwnd⟩ := p
    cases hm : move hwnd <;> simp [tileLoop, hm, ih (i + 1), List.filter]

/-- Every pair whose apply fails gets a failure log line. -/
theorem tileLoop_failed_mem (SW SH : ℤ) (move : ℕ → Bool) :
    ∀ (pairs : List (Region × ℕ)) (i : ℕ) (p : Region × ℕ), p ∈ pairs →
      move p.2 = false → LogMsg.tileFailed p.2 ∈ (tileLoop SW SH move pairs i).2 := by
  intro pairs
  induction pairs with
  | nil => intro i p hp; simp at hp
  | cons q rest ih =>
    intro i p hp hf
    obtain ⟨r, hwnd⟩ := q
    rcases List.mem_cons.1 hp with hEq | hmem
    · subst hEq
      simp [tileLoop, hf]
    · cases hm : move hwnd <;>
        simp [tileLoop, hm, ih (i + 1) p hmem hf]

/-- C1 (code bug): the file defines `tile_window` twice and Python binds
the later definition, which scales the fractions by the primary-screen
metrics `SCREEN_W × SCREEN_H` at origin `(0, 0)` and never consults the
window's monitor.  With primary metrics 1920×1080, the region
`(0, 0, 0.5, 1.0)` and a window on the monitor `(1920, 0, 3840, 1080)`,
the effective code computes `(0, 0, 960, 1080)`, whereas the shadowed
monitor-aware definition — whose docstring states the claimed behaviour —
computes the claimed `(1920, 0, 960, 1080)`. -/
theorem claim_C1 :
    tileRect 1920 1080 ⟨0, 0, 1/2, 1⟩ = (0, 0, 960, 1080) ∧
    tileRect_v1 (1920, 0, 3840, 1080) ⟨0, 0, 1/2, 1⟩ = (1920, 0, 960, 1080) ∧
    ((0, 0, 960, 1080) : ℤ × ℤ × ℤ × ℤ) ≠ (1920, 0, 960, 1080) := by
  refine ⟨?_, ?_, by decide⟩
  · norm_num [tileRect, pyInt, Prod.ext_iff]
  · norm_num [tileRect_v1, pyInt, Prod.ext_iff]

/-- C7: with every move succeeding, `tile_window` applies geometry to
exactly the first `min(len(regions), len(candidates))` positional pairs
(the placements are the zip of the two lists, each window at its
region's rectangle), and surplus regions or surplus windows are only
reported in the log, never an error. -/
theorem claim_C7 (SW SH : ℤ) (regions : List Region) (candidates : List ℕ)
    (hr : regions ≠ []) (hc : candidates ≠ []) :
    (tile_window SW SH (fun _ => true) regions candidates).1 =
      (regions.zip candidates).map (fun p => (p.2, tileRect SW SH p.1)) ∧
    (tile_window SW SH (fun _ => true) regions candidates).1.length =
      min regions.length candidates.length ∧
    (min regions.length candidates.length < regions.length →
      LogMsg.regionsUnused (regions.length - min regions.length candidates.length)
        ∈ (tile_window SW SH (fun _ => true) regions candidates).2) ∧
    (min regions.length candidates.length < candidates.length →
      LogMsg.windowsUntiled (candidates.length - min regions.length candidates.length)
        ∈ (tile_window SW SH (fun _ => true) regions candidates).2) := by
  have h1 : ¬(regions.isEmpty = true) := by simpa [List.isEmpty_iff] using hr
  have h2 : ¬(candidates.isEmpty = true) := by simpa [List.isEmpty_iff] using hc
  have hfst : (tile_window SW SH (fun _ => true) regions candidates).1 =
      (regions.zip candidates).map (fun p => (p.2, tileRect SW SH p.1)) := by
    simp only [tile_window, if_neg h1, if_neg h2]
    rw [tileLoop_fst]
    simp
  refine ⟨hfst, ?_, ?_, ?_⟩
  · rw [hfst]
    simp [List.length_zip]
  · intro hlt
    simp [tile_window, hr, hc, hlt, List.mem_append]
  · intro hlt
    simp [tile_window, hr, hc, hlt, List.mem_append]

/-- C7 witness: three saved regions and one candidate window — exactly
one window is tiled, to the first region, and the two unused regions
are reported. -/
theorem claim_C7_witness :
    (tile_window 1920 1080 (fun _ => true)
        [⟨0, 0, 1/2, 1⟩, ⟨1/2, 0, 1/2, 1⟩, ⟨0, 1/2, 1, 1/2⟩] [9]).1
      = [(9, tileRect 1920 1080 ⟨0, 0, 1/2, 1⟩)] ∧
    LogMsg.regionsUnused 2 ∈
      (tile_window 1920 1080 (fun _ => true)
        [⟨0, 0, 1/2, 1⟩, ⟨1/2, 0, 1/2, 1⟩, ⟨0, 1/2, 1, 1/2⟩] [9]).2 := by
  have h := claim_C7 1920 1080
    [⟨0, 0, 1/2, 1⟩, ⟨1/2, 0, 1/2, 1⟩, ⟨0, 1/2, 1, 1/2⟩] [9]
    (by simp) (by simp)
  refine ⟨by rw [h.1]; rfl, ?_⟩
  have hu := h.2.2.1 (by norm_num)
  simpa using hu

/-- C8: a failing move on one paired window is caught and logged
(`tileFailed`), and every other pair is still processed: the windows
actually moved are exactly the pairs whose apply succeeds, each placed
at its own region's rectangle, and the function returns normally. -/
theorem claim_C8 (SW SH : ℤ) (move : ℕ → Bool) (regions : List Region)
    (candidates : List ℕ) :
    (tile_window SW SH move regions candidates).1 =
      ((regions.zip candidates).filter (fun p => move p.2)).map
        (fun p => (p.2, tileRect SW SH p.1)) ∧
    (∀ p ∈ regions.zip candidates, move p.2 = false →
      LogMsg.tileFailed p.2 ∈ (tile_window SW SH move regions candidates).2) := by
  by_cases h1 : regions.isEmpty = true
  · rw [List.isEmpty_iff] at h1
    subst h1
    simp [tile_window]
  · by_cases h2 : candidates.isEmpty = true
    · rw [List.isEmpty_iff] at h2
      subst h2
      have hr : regions ≠ [] := by simpa [List.isEmpty_iff] using h1
      simp [tile_window, hr]
    · constructor
      · simp only [tile_window, if_neg h1, if_neg h2]
        exact tileLoop_fst SW SH move (regions.zip candidates) 0
      · intro p hp hf
        simp only [tile_window, if_neg h1, if_neg h2]
        exact List.mem_append_left _
          (List.mem_append_left _ (tileLoop_failed_mem SW SH move _ 0 p hp hf))

/-- C8 witness: three pairs where the move of window #2 (handle 6)
throws — windows #1 and #3 are still placed at their regions'
rectangles. -/
theorem claim_C8_witness :
    (tile_window 1920 1080 (fun h => decide (h ≠ 6))
        [⟨0, 0, 1/2, 1⟩, ⟨1/2, 0, 1/2, 1⟩, ⟨0, 1/2, 1, 1/2⟩] [5, 6, 7]).1
      = [(5, tileRect 1920 1080 ⟨0, 0, 1/2, 1⟩),
         (7, tileRect 1920 1080 ⟨0, 1/2, 1, 1/2⟩)] ∧
    LogMsg.tileFailed 6 ∈
      (tile_window 1920 1080 (fun h => decide (h ≠ 6))
        [⟨0, 0, 1/2, 1⟩, ⟨1/2, 0, 1/2, 1⟩, ⟨0, 1/2, 1, 1/2⟩] [5, 6, 7]).2 := by
  have h := claim_C8 1920 1080 (fun h => decide (h ≠ 6))
    [⟨0, 0, 1/2, 1⟩, ⟨1/2, 0, 1/2, 1⟩, ⟨0, 1/2, 1, 1/2⟩] [5, 6, 7]
  refine ⟨?_, ?_⟩
  · rw [h.1]
    rfl
  · exact h.2 (⟨1/2, 0, 1/2, 1⟩, 6) (by simp [List.zip]) (by decide)

/-! ### Persistence: `save_mappings` write semantics (C4) and the
recorder's point buffer (C10) -/

/-- The sequence of on-disk contents of the mappings file while
`save_mappings` runs, in temporal order.  The code is
`open(MAPPINGS_FILE, 'w')` followed by `json.dump(m, f)`: opening with
mode `'w'` truncates the file in place (no temporary file, no rename),
and the dump then appends the serialized text incrementally, so an
interruption can observe the old contents, the empty file, or any
prefix of the new contents.  File contents are modelled as character
lists. -/
def save_mappings_states (old new : List Char) : List (List Char) :=
  old :: (List.range (new.length + 1)).map (fun k => new.take k)

/-- C4 counterexample: saving contents `"BC"` over old contents `"A"`
passes through the truncated empty file, a state that is neither the
old complete contents nor the new complete contents — the write is not
atomic. -/
theorem claim_C4_counterexample :
    [] ∈ save_mappings_states ['A'] ['B', 'C'] ∧
    ¬(([] : List Char) = ['A'] ∨ ([] : List Char) = ['B', 'C']) := by
  constructor
  · exact List.mem_cons_of_mem _ (List.mem_map.2 ⟨0, List.mem_range.2 (by omega), rfl⟩)
  · simp

/-- C4 (amended): `save_mappings` writes the mapping in place with no
temporary file or rename: the write starts from the old contents,
always passes through the truncated empty file, every intermediate
state is the old contents or a prefix of the new contents, and only the
final state is the complete new contents — so an interruption mid-write
can leave a truncated (even empty) file rather than either complete
version. -/
theorem claim_C4 (old new : List Char) :
    (save_mappings_states old new).head? = some old ∧
    [] ∈ save_mappings_states old new ∧
    (save_mappings_states old new).getLast? = some new ∧
    (∀ s ∈ save_mappings_states old new, s = old ∨ ∃ k, s = new.take k) := by
  refine ⟨rfl, ?_, ?_, ?_⟩
  · exact List.mem_cons_of_mem _ (List.mem_map.2 ⟨0, List.mem_range.2 (by omega), rfl⟩)
  · rw [save_mappings_states, List.range_succ, List.map_append]
    simp only [List.map_cons, List.map_nil, List.take_length]
    rw [show old :: (List.map (fun k => new.take k) (List.range new.length) ++ [new])
        = (old :: List.map (fun k => new.take k) (List.range new.length)) ++ [new] from rfl]
    exact List.getLast?_concat _
  · intro s hs
    rcases List.mem_cons.1 hs with h | h
    · exact Or.inl h
    · rcases List.mem_map.1 h with ⟨k, -, rfl⟩
      exact Or.inr ⟨k, rfl⟩

/-- The operations performed on the recorder's shared point buffer:
`on_move` appends a point, `clear` empties the buffer, `fetch` drains
the buffer (returns its contents and empties it). -/
inductive ROp where
  | move : Pt → ROp
  | clear : ROp
  | fetch : ROp

/-- The buffer contents after running a sequence of recorder operations
(each operation holds the lock, so the model is sequential). -/
def recBuf (buf : List Pt) : List ROp → List Pt
  | [] => buf
  | ROp.move p :: rest => recBuf (buf ++ [p]) rest
  | ROp.clear :: rest => recBuf [] rest
  | ROp.fetch :: rest => recBuf [] rest

/-- Embeds `Recorder.fetch`: `arr = np.array(self.pts)`,
`self.pts.clear()`, `return arr` — it returns the buffer contents and
leaves the buffer empty. -/
def fetchR (buf : List Pt) : List Pt × List Pt := (buf, [])

/-- Running one list of operations after another. -/
theorem recBuf_append (ops1 ops2 : List ROp) :
    ∀ buf, recBuf buf (ops1 ++ ops2) = recBuf (recBuf buf ops1) ops2 := by
  induction ops1 with
  | nil => intro buf; rfl
  | cons op rest ih =>
    intro buf
    cases op <;> simp [recBuf, ih]

/-- Appending moves only extends the buffer in order. -/
theorem recBuf_moves (ps : List Pt) :
    ∀ buf, recBuf buf (ps.map ROp.move) = buf ++ ps := by
  induction ps with
  | nil => intro buf; simp [recBuf]
  | cons p rest ih =>
    intro buf
    simp [recBuf, ih]

/-- C10: after any operation history, a `clear` or a `fetch` followed by
the appends of exactly the points `ps`, a `fetch` returns exactly `ps`
in order and leaves the buffer empty; moreover the buffer is empty
immediately after any `fetch`, so each appended point appears in at
most one fetch result and a fetch immediately following a fetch (with
no intervening `on_move`) returns the empty array. -/
theorem claim_C10 (pre : List ROp) (ps : List Pt) (r : ROp)
    (hr : r = ROp.clear ∨ r = ROp.fetch) :
    fetchR (recBuf [] (pre ++ r :: ps.map ROp.move)) = (ps, []) ∧
    recBuf [] (pre ++ [ROp.fetch]) = [] := by
  constructor
  · have hstep : recBuf (recBuf [] pre) [r] = [] := by
      rcases hr with rfl | rfl <;> rfl
    have : recBuf [] (pre ++ r :: ps.map ROp.move)
        = recBuf (recBuf (recBuf [] pre) [r]) (ps.map ROp.move) := by
      rw [show r :: ps.map ROp.move = [r] ++ ps.map ROp.move from rfl,
          recBuf_append, recBuf_append]
    rw [this, hstep, recBuf_moves]
    rfl
  · rw [recBuf_append]
    rfl

/-- C10 witness: after a history of one stray move, a fetch, and two
appended points, the next fetch returns exactly those two points and
empties the buffer; a fetch directly after a fetch returns the empty
array. -/
theorem claim_C10_witness :
    fetchR (recBuf [] ([ROp.move (5, 6)] ++ ROp.fetch :: [((1 : ℤ), (2 : ℤ)), (3, 4)].map ROp.move))
      = ([((1 : ℤ), (2 : ℤ)), (3, 4)], []) ∧
    recBuf [] ([ROp.move (5, 6)] ++ [ROp.fetch]) = [] :=
  claim_C10 [ROp.move (5, 6)] [(1, 2), (3, 4)] ROp.fetch (Or.inr rfl)

end WinTiler
